import Mathlib

/-!
Verification of `bot_twelve.py` (crude-oil RSI alert bot).

Numeric model: closing prices and the gain/loss/average series are exact
rationals.  The two places where the Python floats can become non-finite
(the division `rs = avg_gain / avg_loss` and everything downstream of it)
are modelled by the type `EF` (extended float value): a finite rational,
`+inf`, `-inf`, or `nan`, with the IEEE-754 propagation rules for the
operations the script performs.  Rationals have a single zero, so the
IEEE signed-zero distinction is not modelled; every divisor produced by
the script is a smoothed average of non-negative values, for which the
sign of zero never matters.
-/

namespace Bot

/-- Value of a float expression: finite rational, `+∞`, `-∞`, or `NaN`. -/
inductive EF where
  | fin (q : ℚ)
  | inf
  | ninf
  | nan
deriving DecidableEq, Repr

/-- IEEE addition on `EF` (`∞ + (-∞) = NaN`, `NaN` propagates). -/
def efAdd : EF → EF → EF
  | .nan, _ => .nan
  | _, .nan => .nan
  | .inf, .ninf => .nan
  | .ninf, .inf => .nan
  | .inf, _ => .inf
  | _, .inf => .inf
  | .ninf, _ => .ninf
  | _, .ninf => .ninf
  | .fin a, .fin b => .fin (a + b)

/-- IEEE negation on `EF`. -/
def efNeg : EF → EF
  | .nan => .nan
  | .inf => .ninf
  | .ninf => .inf
  | .fin a => .fin (-a)

/-- IEEE subtraction on `EF` (`x - y = x + (-y)`). -/
def efSub (a b : EF) : EF := efAdd a (efNeg b)

/-- IEEE division on `EF`.  A finite nonzero value divided by zero gives a
signed infinity and `0 / 0` gives `NaN`; with a single rational zero the
zero divisor is treated as `+0`, which is the sign every divisor produced
by the script (an average of non-negative terms) actually has. -/
def efDiv : EF → EF → EF
  | .nan, _ => .nan
  | _, .nan => .nan
  | .inf, .inf => .nan
  | .inf, .ninf => .nan
  | .ninf, .inf => .nan
  | .ninf, .ninf => .nan
  | .inf, .fin b => if b < 0 then .ninf else .inf
  | .ninf, .fin b => if b < 0 then .inf else .ninf
  | .fin _, .inf => .fin 0
  | .fin _, .ninf => .fin 0
  | .fin a, .fin b =>
      if b = 0 then (if a = 0 then .nan else if a < 0 then .ninf else .inf)
      else .fin (a / b)

/-- IEEE `<` on `EF`: any comparison with `NaN` is false. -/
def efLt : EF → EF → Bool
  | .nan, _ => false
  | _, .nan => false
  | .inf, _ => false
  | _, .ninf => false
  | .ninf, _ => true
  | .fin _, .inf => true
  | .fin a, .fin b => decide (a < b)

/-- IEEE `≤` on `EF`: any comparison with `NaN` is false. -/
def efLe : EF → EF → Bool
  | .nan, _ => false
  | _, .nan => false
  | .ninf, _ => true
  | _, .inf => true
  | .inf, _ => false
  | .fin _, .ninf => false
  | .fin a, .fin b => decide (a ≤ b)

/-! ### `calculate_rsi` (bot_twelve.py lines 32–45) -/

/-- Tail of `series.diff()`: successive differences `x[i] - x[i-1]`. -/
def diffAux (prev : ℚ) : List ℚ → List ℚ
  | [] => []
  | x :: xs => (x - prev) :: diffAux x xs

/-- Model of `series.diff()`: the first entry is NaN (modelled `none`), entry `i ≥ 1`
is `series[i] - series[i-1]`. -/
def diff : List ℚ → List (Option ℚ)
  | [] => []
  | x :: xs => none :: (diffAux x xs).map some

/-- Model of `delta.where(delta > 0, 0.0)`: keep `delta` where the condition holds,
else `0.0`; the NaN first difference compares false and becomes `0.0`. -/
def gainOf : Option ℚ → ℚ
  | none => 0
  | some d => if 0 < d then d else 0

/-- Model of `-delta.where(delta < 0, 0.0)`: `-delta` where `delta < 0`, else `0.0`
(negated); the NaN first difference compares false and becomes `0.0`. -/
def lossOf : Option ℚ → ℚ
  | none => 0
  | some d => if d < 0 then -d else 0

/-- Tail of `ewm(alpha).mean()` with `adjust=False`: running accumulator
`y[i] = alpha * x[i] + (1 - alpha) * y[i-1]`. -/
def ewmAux (α : ℚ) (acc : ℚ) : List ℚ → List ℚ
  | [] => []
  | x :: xs => (α * x + (1 - α) * acc) :: ewmAux α (α * x + (1 - α) * acc) xs

/-- Model of `s.ewm(com, adjust=False).mean()` with `alpha = 1 / (1 + com)`:
seeded `y[0] = x[0]`, then the non-adjusted recursive average. -/
def ewm (α : ℚ) : List ℚ → List ℚ
  | [] => []
  | x :: xs => x :: ewmAux α x xs

/-- Model of `calculate_rsi(series, period)` (lines 32–45):
`delta = series.diff()`; `gain = delta.where(delta > 0, 0.0)`;
`loss = -delta.where(delta < 0, 0.0)`;
`avg_gain/avg_loss = (gain/loss).ewm(com=period-1, adjust=False).mean()`
(so `alpha = 1 / (1 + (period - 1))`);
`rs = avg_gain / avg_loss`; `rsi = 100 - (100 / (1 + rs))`.
The division and everything after it live in `EF`. -/
def calculate_rsi (series : List ℚ) (period : ℕ) : List EF :=
  let delta := diff series
  let gain := delta.map gainOf
  let loss := delta.map lossOf
  let α : ℚ := 1 / (1 + ((period : ℚ) - 1))
  let avg_gain := ewm α gain
  let avg_loss := ewm α loss
  let rs := List.zipWith (fun g l => efDiv (.fin g) (.fin l)) avg_gain avg_loss
  rs.map (fun r => efSub (.fin 100) (efDiv (.fin 100) (efAdd (.fin 1) r)))

/-! ### Crossover logic (bot_twelve.py lines 102–115) -/

/-- Alert decision of one run. -/
inductive Signal where
  | buy
  | sell
  | none
deriving DecidableEq, Repr

/-- The crossover decision of `check_market` on `(prev_rsi, current_rsi)`:
`if prev_rsi <= 30 and current_rsi > 30` → BUY,
`elif prev_rsi >= 80 and current_rsi < 80` → SELL, else no alert.
The comparisons are IEEE float comparisons, so NaN operands decide
neither branch. -/
def signal (prev curr : EF) : Signal :=
  if efLe prev (.fin 30) && efLt (.fin 30) curr then .buy
  else if efLe (.fin 80) prev && efLt curr (.fin 80) then .sell
  else .none

/-! ### Fetching and the check boundary (bot_twelve.py lines 47–115) -/

/-- One OHLC record of the `values` list (numeric conversion already
applied; only `close` is consumed downstream). -/
structure Candle where
  op : ℚ
  hi : ℚ
  lo : ℚ
  close : ℚ
deriving DecidableEq, Repr

/-- What the data request can come back as: a raised exception (network or
JSON decode failure), or a JSON object with an optional `values` list and
an optional `message` field. -/
inductive ApiResponse where
  | exn (e : String)
  | json (values : Option (List Candle)) (message : Option String)
deriving DecidableEq, Repr

/-- Model of `get_twelvedata_price()` (lines 47–81): returns the data frame it
builds (`none` on failure) together with the diagnostic lines it prints.
An exception prints `API Request Failed`; a response without `values`
prints `Error fetching data` with the response `message` (or
`Unknown error`); an empty `values` list builds an empty frame whose
column selection `df[cols]` raises `KeyError`, caught by the same
`except` arm; otherwise the rows are reversed into oldest-first order. -/
def get_twelvedata_price : ApiResponse → Option (List Candle) × List String
  | .exn e => (Option.none, ["API Request Failed: " ++ e])
  | .json Option.none msg =>
      (Option.none, ["Error fetching data: " ++ msg.getD "Unknown error"])
  | .json (Option.some []) _ =>
      (Option.none, ["API Request Failed: KeyError on column selection of an empty frame"])
  | .json (Option.some vs) _ => (Option.some vs.reverse, [])

/-- Python `s.iloc[k]` on a series of length `n`: a negative `k` indexes
from the end (`n + k`); out of range raises `IndexError` (`none`). -/
def iloc (l : List EF) (k : ℤ) : Option EF :=
  if k < 0 then
    if (-k).toNat ≤ l.length then l.get? (l.length - (-k).toNat) else Option.none
  else l.get? k.toNat

/-- How one invocation of `check_market` ends. -/
inductive RunOutcome where
  | noData
  | indexError
  | decided (s : Signal)
deriving DecidableEq, Repr

/-- Outcome of `check_market` plus the number of Telegram messages sent. -/
structure CheckResult where
  outcome : RunOutcome
  alerts : ℕ
deriving DecidableEq, Repr

/-- Model of the `check_market()` body after the fetch (lines 83–115): `None` or empty
frame → print and return; otherwise compute the RSI column, read
`iloc[-1]` and `iloc[-2]` (an out-of-range access raises `IndexError`,
which nothing catches), and send one message on BUY or SELL. -/
def check_market (fetched : Option (List Candle)) : CheckResult :=
  match fetched with
  | Option.none => ⟨.noData, 0⟩
  | Option.some df =>
    if df.isEmpty then ⟨.noData, 0⟩
    else
      let rsi := calculate_rsi (df.map Candle.close) 14
      match iloc rsi (-1), iloc rsi (-2) with
      | Option.some curr, Option.some prev =>
          match signal prev curr with
          | .buy => ⟨.decided .buy, 1⟩
          | .sell => ⟨.decided .sell, 1⟩
          | .none => ⟨.decided .none, 0⟩
      | _, _ => ⟨.indexError, 0⟩

/-! ### Startup configuration check and whole-process run
(bot_twelve.py lines 12–18 and 117–118) -/

/-- Python truthiness of `os.environ.get(...)`: `None` and the empty
string are falsy. -/
def truthy : Option String → Bool
  | Option.none => false
  | Option.some s => !s.isEmpty

/-- A network request the process performs. -/
inductive NetEvent where
  | fetchRequest
  | telegramSend
deriving DecidableEq, Repr

/-- Exit code of the process and the network requests it made, in order. -/
structure MainResult where
  exitCode : ℕ
  net : List NetEvent
deriving DecidableEq, Repr

/-- The whole process on given environment variables and data-provider
response: the module-level check `if not BOT_TOKEN or not CHAT_ID or not
API_KEY: sys.exit(1)` runs before anything else; otherwise `check_market`
performs the data request and sends one message per fired alert.  An
uncaught `IndexError` terminates the interpreter with exit code 1;
otherwise the script falls off the end with exit code 0. -/
def runMain (bot chat key : Option String) (resp : ApiResponse) : MainResult :=
  if !truthy bot || !truthy chat || !truthy key then ⟨1, []⟩
  else
    let res := check_market (get_twelvedata_price resp).1
    ⟨(match res.outcome with | .indexError => 1 | _ => 0),
      NetEvent.fetchRequest :: List.replicate res.alerts NetEvent.telegramSend⟩

/-! ### Reference definitions taken from the specification text (§4.1),
used only to state the refinement claim against `calculate_rsi`. -/

/-- Non-adjusted recursive EWMA from the spec:
`avg[i] = alpha * value[i] + (1 - alpha) * avg[i-1]`, `avg[0] = value[0]`. -/
def specAvg (α : ℚ) (v : ℕ → ℚ) : ℕ → ℚ
  | 0 => v 0
  | i + 1 => α * v (i + 1) + (1 - α) * specAvg α v i

/-- Spec gain series: `gain[i] = max(delta[i], 0)` with
`delta[i] = close[i] - close[i-1]` for `i ≥ 1`; the undefined `delta[0]`
contributes `0`. -/
def refGain (s : List ℚ) (i : ℕ) : ℚ :=
  if i = 0 then 0 else max (s.getD i 0 - s.getD (i - 1) 0) 0

/-- Spec loss series: `loss[i] = max(-delta[i], 0)`, `0` at `i = 0`. -/
def refLoss (s : List ℚ) (i : ℕ) : ℚ :=
  if i = 0 then 0 else max (-(s.getD i 0 - s.getD (i - 1) 0)) 0

/-- Spec smoothed average gain: recursive EWMA with `alpha = 1/P`. -/
def refAvgGain (s : List ℚ) (p : ℕ) (i : ℕ) : ℚ :=
  specAvg (1 / (p : ℚ)) (refGain s) i

/-- Spec smoothed average loss: recursive EWMA with `alpha = 1/P`. -/
def refAvgLoss (s : List ℚ) (p : ℕ) (i : ℕ) : ℚ :=
  specAvg (1 / (p : ℚ)) (refLoss s) i

/-- The RSI formula applied to one pair of smoothed averages:
`rsi = 100 - 100 / (1 + g / l)` with float (EF) semantics. -/
def rsiFrom (g l : ℚ) : EF :=
  efSub (.fin 100) (efDiv (.fin 100) (efAdd (.fin 1) (efDiv (.fin g) (.fin l))))

/-- Spec RSI series: `rsi[i] = 100 - 100 / (1 + avg_gain[i] / avg_loss[i])`. -/
def refRsi (s : List ℚ) (p : ℕ) (i : ℕ) : EF :=
  rsiFrom (refAvgGain s p i) (refAvgLoss s p i)

/-! ### Length lemmas -/

theorem length_diffAux (prev : ℚ) : ∀ l : List ℚ, (diffAux prev l).length = l.length
  | [] => rfl
  | x :: xs => by simp [diffAux, length_diffAux x xs]

theorem length_diff : ∀ s : List ℚ, (diff s).length = s.length
  | [] => rfl
  | x :: xs => by simp [diff, length_diffAux x xs]

theorem length_ewmAux (α a : ℚ) : ∀ l : List ℚ, (ewmAux α a l).length = l.length
  | [] => rfl
  | x :: xs => by simp [ewmAux, length_ewmAux α (α * x + (1 - α) * a) xs]

theorem length_ewm (α : ℚ) : ∀ l : List ℚ, (ewm α l).length = l.length
  | [] => rfl
  | x :: xs => by simp [ewm, length_ewmAux α x xs]

theorem length_calculate_rsi (s : List ℚ) (p : ℕ) :
    (calculate_rsi s p).length = s.length := by
  simp [calculate_rsi, length_ewm, length_diff]

/-! ### Indexed characterizations -/

theorem getElem?_zipWith_of (f : α → β → γ) :
    ∀ (l : List α) (m : List β) (i : ℕ) (a : α) (b : β),
      l[i]? = some a → m[i]? = some b → (List.zipWith f l m)[i]? = some (f a b)
  | [], _, _, _, _, h, _ => by simp at h
  | _ :: _, [], _, _, _, _, h => by simp at h
  | a' :: l, b' :: m, 0, a, b, ha, hb => by
      simp only [List.getElem?_cons_zero, Option.some.injEq] at ha hb
      simp [List.zipWith, ha, hb]
  | a' :: l, b' :: m, i + 1, a, b, ha, hb => by
      simpa [List.zipWith] using
        getElem?_zipWith_of f l m i a b (by simpa using ha) (by simpa using hb)

theorem getD_of_getElem? {l : List α} {i : ℕ} {a : α} (d : α) (h : l[i]? = some a) :
    l.getD i d = a := by
  rw [List.getD_eq_getElem?_getD l i d, h]; rfl

theorem diffAux_get :
    ∀ (xs : List ℚ) (prev : ℚ) (i : ℕ), i < xs.length →
      (diffAux prev xs)[i]? = some (xs.getD i 0 - (prev :: xs).getD i 0)
  | [], _, _, h => absurd h (by simp)
  | x :: xs, prev, 0, _ => by simp [diffAux]
  | x :: xs, prev, i + 1, h => by
      have := diffAux_get xs x i (by simpa using h)
      simpa [diffAux] using this

theorem diff_get_zero (x : ℚ) (xs : List ℚ) : (diff (x :: xs))[0]? = some Option.none := by
  simp [diff]

theorem diff_get_succ (s : List ℚ) (i : ℕ) (h : i + 1 < s.length) :
    (diff s)[i + 1]? = some (Option.some (s.getD (i + 1) 0 - s.getD i 0)) := by
  match s with
  | [] => simp at h
  | x :: xs =>
    have hx : i < xs.length := by simpa using h
    have h1 : (diff (x :: xs))[i + 1]? = ((diffAux x xs)[i]?).map Option.some := by
      simp [diff, List.getElem?_map]
    rw [h1, diffAux_get xs x i hx]
    simp [List.getD_cons_succ]

theorem ewmAux_get (α : ℚ) (v : ℕ → ℚ) :
    ∀ (l : List ℚ) (k i : ℕ), i < l.length →
      (∀ j, j < l.length → l.getD j 0 = v (k + 1 + j)) →
      (ewmAux α (specAvg α v k) l)[i]? = some (specAvg α v (k + 1 + i))
  | [], _, _, h, _ => absurd h (by simp)
  | x :: xs, k, i, h, hv => by
      have hx : x = v (k + 1) := by simpa using hv 0 (by simp)
      have hy : α * x + (1 - α) * specAvg α v k = specAvg α v (k + 1) := by
        rw [hx]; rfl
      match i with
      | 0 => simpa [ewmAux] using hy
      | i + 1 =>
        have hs : i < xs.length := by simpa using h
        have hv' : ∀ j, j < xs.length → xs.getD j 0 = v (k + 1 + 1 + j) := by
          intro j hj
          have := hv (j + 1) (by simpa using Nat.succ_lt_succ hj)
          simpa [List.getD_cons_succ, Nat.add_assoc, Nat.add_comm, Nat.add_left_comm] using this
        have := ewmAux_get α v xs (k + 1) i hs hv'
        have harith : k + 1 + 1 + i = k + 1 + (i + 1) := by omega
        rw [harith] at this
        simpa [ewmAux, hy] using this

theorem ewm_get (α : ℚ) (v : ℕ → ℚ) (l : List ℚ) (i : ℕ) (h : i < l.length)
    (hv : ∀ j, j < l.length → l.getD j 0 = v j) :
    (ewm α l)[i]? = some (specAvg α v i) := by
  match l with
  | [] => simp at h
  | x :: xs =>
    have hx : x = v 0 := by simpa using hv 0 (by simp)
    have hx' : x = specAvg α v 0 := hx
    match i with
    | 0 => simpa [ewm] using hx'
    | i + 1 =>
      have hs : i < xs.length := by simpa using h
      have hv' : ∀ j, j < xs.length → xs.getD j 0 = v (0 + 1 + j) := by
        intro j hj
        have := hv (j + 1) (by simpa using Nat.succ_lt_succ hj)
        simpa [List.getD_cons_succ, Nat.add_comm, Nat.add_left_comm] using this
      have key := ewmAux_get α v xs 0 i hs hv'
      have harith : 0 + 1 + i = i + 1 := by omega
      rw [harith] at key
      show (x :: ewmAux α x xs)[i + 1]? = some (specAvg α v (i + 1))
      rw [List.getElem?_cons_succ, hx']
      exact key

theorem gain_entry (s : List ℚ) (j : ℕ) (hj : j < s.length) :
    ((diff s).map gainOf).getD j 0 = refGain s j := by
  match s, j with
  | [], _ => simp at hj
  | x :: xs, 0 =>
    have h0 : ((diff (x :: xs)).map gainOf)[0]? = some (gainOf Option.none) := by
      rw [List.getElem?_map gainOf (diff (x :: xs)) 0, diff_get_zero]; rfl
    rw [getD_of_getElem? 0 h0]; rfl
  | x :: xs, i + 1 =>
    have hd := diff_get_succ (x :: xs) i hj
    have h1 : ((diff (x :: xs)).map gainOf)[i + 1]? =
        some (gainOf (Option.some ((x :: xs).getD (i + 1) 0 - (x :: xs).getD i 0))) := by
      rw [List.getElem?_map gainOf (diff (x :: xs)) (i + 1), hd]; rfl
    rw [getD_of_getElem? 0 h1]
    show (if 0 < (x :: xs).getD (i + 1) 0 - (x :: xs).getD i 0 then
        (x :: xs).getD (i + 1) 0 - (x :: xs).getD i 0 else 0) = refGain (x :: xs) (i + 1)
    rw [refGain]
    simp only [Nat.add_sub_cancel]
    rcases lt_or_le 0 ((x :: xs).getD (i + 1) 0 - (x :: xs).getD i 0) with h | h
    · rw [if_pos h, if_neg (by omega : ¬(i + 1 = 0)), max_eq_left h.le]
    · rw [if_neg (not_lt.2 h), if_neg (by omega : ¬(i + 1 = 0)), max_eq_right h]

theorem loss_entry (s : List ℚ) (j : ℕ) (hj : j < s.length) :
    ((diff s).map lossOf).getD j 0 = refLoss s j := by
  match s, j with
  | [], _ => simp at hj
  | x :: xs, 0 =>
    have h0 : ((diff (x :: xs)).map lossOf)[0]? = some (lossOf Option.none) := by
      rw [List.getElem?_map lossOf (diff (x :: xs)) 0, diff_get_zero]; rfl
    rw [getD_of_getElem? 0 h0]; rfl
  | x :: xs, i + 1 =>
    have hd := diff_get_succ (x :: xs) i hj
    have h1 : ((diff (x :: xs)).map lossOf)[i + 1]? =
        some (lossOf (Option.some ((x :: xs).getD (i + 1) 0 - (x :: xs).getD i 0))) := by
      rw [List.getElem?_map lossOf (diff (x :: xs)) (i + 1), hd]; rfl
    rw [getD_of_getElem? 0 h1]
    show (if (x :: xs).getD (i + 1) 0 - (x :: xs).getD i 0 < 0 then
        -((x :: xs).getD (i + 1) 0 - (x :: xs).getD i 0) else 0) = refLoss (x :: xs) (i + 1)
    rw [refLoss]
    simp only [Nat.add_sub_cancel]
    rcases lt_or_le ((x :: xs).getD (i + 1) 0 - (x :: xs).getD i 0) 0 with h | h
    · rw [if_pos h, if_neg (by omega : ¬(i + 1 = 0)), max_eq_left (by linarith)]
    · rw [if_neg (not_lt.2 h), if_neg (by omega : ¬(i + 1 = 0)), max_eq_right (by linarith)]

/-- Master lemma: entry `i` of the list `calculate_rsi` returns is the RSI
formula applied to the recursively smoothed averages of the gain and loss
series (the spec recursion with `alpha = 1/period`). -/
theorem calculate_rsi_get (s : List ℚ) (p : ℕ) (i : ℕ) (hi : i < s.length) :
    (calculate_rsi s p)[i]? = some (rsiFrom (refAvgGain s p i) (refAvgLoss s p i)) := by
  have hα : (1 : ℚ) / (1 + ((p : ℚ) - 1)) = 1 / (p : ℚ) := by ring_nf
  have hgl : i < ((diff s).map gainOf).length := by
    simpa [List.length_map, length_diff] using hi
  have hll : i < ((diff s).map lossOf).length := by
    simpa [List.length_map, length_diff] using hi
  have hg : (ewm (1 / (1 + ((p : ℚ) - 1))) ((diff s).map gainOf))[i]? =
      some (refAvgGain s p i) := by
    rw [hα, refAvgGain]
    exact ewm_get (1 / (p : ℚ)) (refGain s) _ i hgl
      (fun j hj => gain_entry s j (by simpa [List.length_map, length_diff] using hj))
  have hl : (ewm (1 / (1 + ((p : ℚ) - 1))) ((diff s).map lossOf))[i]? =
      some (refAvgLoss s p i) := by
    rw [hα, refAvgLoss]
    exact ewm_get (1 / (p : ℚ)) (refLoss s) _ i hll
      (fun j hj => loss_entry s j (by simpa [List.length_map, length_diff] using hj))
  have hrs := getElem?_zipWith_of (fun g l => efDiv (.fin g) (.fin l)) _ _ i _ _ hg hl
  show ((List.zipWith (fun g l => efDiv (.fin g) (.fin l))
      (ewm (1 / (1 + ((p : ℚ) - 1))) ((diff s).map gainOf))
      (ewm (1 / (1 + ((p : ℚ) - 1))) ((diff s).map lossOf))).map
      (fun r => efSub (.fin 100) (efDiv (.fin 100) (efAdd (.fin 1) r))))[i]? = _
  rw [List.getElem?_map _ _ i, hrs]
  rfl

/-! ### Arithmetic facts about the smoothed averages and the RSI formula -/

theorem refGain_nonneg (s : List ℚ) (i : ℕ) : 0 ≤ refGain s i := by
  rw [refGain]; split
  · exact le_refl 0
  · exact le_max_right _ 0

theorem refLoss_nonneg (s : List ℚ) (i : ℕ) : 0 ≤ refLoss s i := by
  rw [refLoss]; split
  · exact le_refl 0
  · exact le_max_right _ 0

theorem specAvg_nonneg (α : ℚ) (v : ℕ → ℚ) (hα0 : 0 ≤ α) (hα1 : α ≤ 1)
    (hv : ∀ j, 0 ≤ v j) : ∀ i, 0 ≤ specAvg α v i
  | 0 => hv 0
  | i + 1 => by
      have h1 : 0 ≤ α * v (i + 1) := mul_nonneg hα0 (hv (i + 1))
      have h2 : 0 ≤ (1 - α) * specAvg α v i :=
        mul_nonneg (by linarith) (specAvg_nonneg α v hα0 hα1 hv i)
      show 0 ≤ α * v (i + 1) + (1 - α) * specAvg α v i
      linarith

theorem specAvg_eq_zero (α : ℚ) (v : ℕ → ℚ) :
    ∀ i, (∀ j, j ≤ i → v j = 0) → specAvg α v i = 0
  | 0, h => h 0 (le_refl 0)
  | i + 1, h => by
      have h1 := specAvg_eq_zero α v i (fun j hj => h j (Nat.le_succ_of_le hj))
      show α * v (i + 1) + (1 - α) * specAvg α v i = 0
      rw [h (i + 1) (le_refl _), h1]; ring

theorem efAdd_fin_fin (a b : ℚ) : efAdd (.fin a) (.fin b) = .fin (a + b) := rfl

theorem efAdd_fin_inf (a : ℚ) : efAdd (.fin a) .inf = .inf := rfl

theorem efAdd_fin_nan (a : ℚ) : efAdd (.fin a) .nan = .nan := rfl

theorem efDiv_fin_inf (a : ℚ) : efDiv (.fin a) .inf = .fin 0 := rfl

theorem efDiv_fin_nan (a : ℚ) : efDiv (.fin a) .nan = .nan := rfl

theorem efSub_fin_fin (a b : ℚ) : efSub (.fin a) (.fin b) = .fin (a + -b) := rfl

theorem efSub_fin_nan (a : ℚ) : efSub (.fin a) .nan = .nan := rfl

theorem efLt_fin_fin (a b : ℚ) : efLt (.fin a) (.fin b) = decide (a < b) := rfl

theorem efLt_nan_right (a : EF) : efLt a .nan = false := by cases a <;> rfl

theorem efLe_fin_fin (a b : ℚ) : efLe (.fin a) (.fin b) = decide (a ≤ b) := rfl

theorem rsiFrom_pos_zero (g : ℚ) (hg : 0 < g) : rsiFrom g 0 = .fin 100 := by
  have h1 : efDiv (.fin g) (.fin 0) = .inf := by
    rw [efDiv]
    rw [if_pos rfl, if_neg hg.ne', if_neg (not_lt.2 hg.le)]
  rw [rsiFrom, h1, efAdd_fin_inf, efDiv_fin_inf, efSub_fin_fin]
  norm_num

theorem rsiFrom_zero_zero : rsiFrom 0 0 = .nan := by
  have h1 : efDiv (.fin 0) (.fin 0) = .nan := by
    rw [efDiv, if_pos rfl, if_pos rfl]
  rw [rsiFrom, h1, efAdd_fin_nan, efDiv_fin_nan, efSub_fin_nan]

theorem rsiFrom_zero_pos (l : ℚ) (hl : 0 < l) : rsiFrom 0 l = .fin 0 := by
  have h1 : efDiv (.fin 0) (.fin l) = .fin 0 := by
    rw [efDiv, if_neg hl.ne']
    norm_num
  have h2 : efDiv (.fin 100) (.fin (1 + 0)) = .fin (100 / (1 + 0)) := by
    rw [efDiv, if_neg (by norm_num : ¬((1 : ℚ) + 0 = 0))]
  rw [rsiFrom, h1, efAdd_fin_fin, h2, efSub_fin_fin]
  norm_num

/-! ### Facts about the crossover decision -/

theorem signal_eq_sell_then (prev curr : EF) (h : signal prev curr = .sell) :
    efLt curr (.fin 80) = true := by
  rw [signal] at h
  split at h
  · exact absurd h (by simp)
  · split at h
    · rename_i hc
      simp only [Bool.and_eq_true] at hc
      exact hc.2
    · exact absurd h (by simp)

theorem signal_eq_buy_then (prev curr : EF) (h : signal prev curr = .buy) :
    efLt (.fin 30) curr = true := by
  rw [signal] at h
  split at h
  · rename_i hc
    simp only [Bool.and_eq_true] at hc
    exact hc.2
  · split at h
    · exact absurd h (by simp)
    · exact absurd h (by simp)

theorem isSome_getElem?_iff (l : List α) (n : ℕ) : l[n]?.isSome = true ↔ n < l.length := by
  constructor
  · intro h
    by_contra hc
    rw [List.getElem?_eq_none (by omega)] at h
    simp at h
  · intro h
    rw [List.getElem?_eq_getElem h]; rfl

theorem refAvgGain_nonneg (s : List ℚ) (p : ℕ) (hp : 1 ≤ p) (i : ℕ) :
    0 ≤ refAvgGain s p i := by
  have hp0 : (0 : ℚ) < p := by exact_mod_cast Nat.lt_of_lt_of_le Nat.zero_lt_one hp
  exact specAvg_nonneg _ _ (one_div_nonneg.2 hp0.le)
    ((div_le_one hp0).2 (by exact_mod_cast hp)) (refGain_nonneg s) i

theorem refAvgLoss_nonneg (s : List ℚ) (p : ℕ) (hp : 1 ≤ p) (i : ℕ) :
    0 ≤ refAvgLoss s p i := by
  have hp0 : (0 : ℚ) < p := by exact_mod_cast Nat.lt_of_lt_of_le Nat.zero_lt_one hp
  exact specAvg_nonneg _ _ (one_div_nonneg.2 hp0.le)
    ((div_le_one hp0).2 (by exact_mod_cast hp)) (refLoss_nonneg s) i

/-! ### Claims -/

/-- C8: for every input closing-price series of length ≥ 1, the RSI series
returned by `calculate_rsi` has exactly the same length as the input
series (index alignment follows from the pointwise construction). -/
theorem claim_C8_output_length_eq_input_length (s : List ℚ) (p : ℕ)
    (_hs : 1 ≤ s.length) : (calculate_rsi s p).length = s.length :=
  length_calculate_rsi s p

theorem claim_C8_witness :
    1 ≤ ([3, 7] : List ℚ).length ∧
      (calculate_rsi [3, 7] 14).length = ([3, 7] : List ℚ).length :=
  ⟨by decide, claim_C8_output_length_eq_input_length [3, 7] 14 (by decide)⟩

/-- C9: `calculate_rsi` is a pure function of its argument list: two
invocations on equal input sequences (with the same period) return equal
output sequences; the embedding is functional, so the input value is
unchanged by construction, mirroring the source where `diff`, `where` and
`ewm` all allocate new series. -/
theorem claim_C9_deterministic (s t : List ℚ) (p : ℕ) (h : s = t) :
    calculate_rsi s p = calculate_rsi t p := by rw [h]

theorem claim_C9_witness :
    ([2, 1] : List ℚ) = [2, 1] ∧ calculate_rsi [2, 1] 14 = calculate_rsi [2, 1] 14 :=
  ⟨rfl, claim_C9_deterministic [2, 1] [2, 1] 14 rfl⟩

/-- C10: for every input series of length ≥ 1 and every period, the first
RSI value is NaN: the first difference is NaN, both gain and loss coerce
it to `0`, both seeded averages are `0` at index 0, and the unguarded
`0 / 0` produces NaN. -/
theorem claim_C10_first_rsi_is_nan (s : List ℚ) (p : ℕ) (hs : 1 ≤ s.length) :
    (calculate_rsi s p)[0]? = some EF.nan := by
  have hm := calculate_rsi_get s p 0 (by omega)
  have hg : refAvgGain s p 0 = 0 := by
    show refGain s 0 = 0
    rw [refGain]; simp
  have hl : refAvgLoss s p 0 = 0 := by
    show refLoss s 0 = 0
    rw [refLoss]; simp
  rw [hg, hl, rsiFrom_zero_zero] at hm
  exact hm

theorem claim_C10_witness :
    1 ≤ ([9] : List ℚ).length ∧ (calculate_rsi [9] 14)[0]? = some EF.nan :=
  ⟨by decide, claim_C10_first_rsi_is_nan [9] 14 (by decide)⟩

/-- C3: for every series of length ≥ 2 and period `P ≥ 1`, `calculate_rsi`
agrees pointwise with the reference definition built from the spec text:
gains/losses from first differences, the seeded non-adjusted recursive
EWMA with `alpha = 1/P`, and `rsi = 100 - 100/(1 + avg_gain/avg_loss)`. -/
theorem claim_C3_matches_reference (s : List ℚ) (p : ℕ) (_hp : 1 ≤ p)
    (_hs : 2 ≤ s.length) (i : ℕ) (hi : i < s.length) :
    (calculate_rsi s p)[i]? = some (refRsi s p i) :=
  calculate_rsi_get s p i hi

theorem claim_C3_witness :
    1 ≤ 14 ∧ 2 ≤ ([4, 6] : List ℚ).length ∧ 1 < ([4, 6] : List ℚ).length ∧
      (calculate_rsi [4, 6] 14)[1]? = some (refRsi [4, 6] 14 1) :=
  ⟨by decide, by decide, by decide,
    claim_C3_matches_reference [4, 6] 14 (by decide) (by decide) 1 (by decide)⟩

/-- C2: the crossover decision is BUY iff `prev ≤ 30` and `curr > 30`,
SELL iff (not the BUY condition and) `prev ≥ 80` and `curr < 80`, and NONE
otherwise; at most one of BUY/SELL fires; the five boundary examples of
the spec evaluate as stated. -/
theorem claim_C2_crossover_rules :
    (∀ p c : ℚ,
      (signal (.fin p) (.fin c) = .buy ↔ (p ≤ 30 ∧ 30 < c)) ∧
      (signal (.fin p) (.fin c) = .sell ↔ (¬(p ≤ 30 ∧ 30 < c) ∧ 80 ≤ p ∧ c < 80)) ∧
      (signal (.fin p) (.fin c) = .none ↔ (¬(p ≤ 30 ∧ 30 < c) ∧ ¬(80 ≤ p ∧ c < 80))) ∧
      ¬(signal (.fin p) (.fin c) = .buy ∧ signal (.fin p) (.fin c) = .sell)) ∧
    signal (.fin 29) (.fin 31) = .buy ∧
    signal (.fin 30) (.fin (301 / 10)) = .buy ∧
    signal (.fin 81) (.fin 79) = .sell ∧
    signal (.fin 80) (.fin (799 / 10)) = .sell ∧
    signal (.fin 50) (.fin 51) = .none := by
  refine ⟨?_, ?_, ?_, ?_, ?_, ?_⟩
  · intro p c
    simp only [signal, efLe_fin_fin, efLt_fin_fin]
    by_cases h1 : p ≤ 30 <;> by_cases h2 : 30 < c <;> by_cases h3 : 80 ≤ p <;>
      by_cases h4 : c < 80 <;> simp [h1, h2, h3, h4]
  · norm_num [signal, efLe_fin_fin, efLt_fin_fin]
  · norm_num [signal, efLe_fin_fin, efLt_fin_fin]
  · norm_num [signal, efLe_fin_fin, efLt_fin_fin]
  · norm_num [signal, efLe_fin_fin, efLt_fin_fin]
  · norm_num [signal, efLe_fin_fin, efLt_fin_fin]

/-- C1 counterexample: on the constant closing-price series `[1, 1]` the
smoothed average loss at index 1 is `0` (shown on the very pipeline the
code runs), yet `calculate_rsi` produces NaN there, not 100: the claim
that a zero average loss always yields RSI = 100 is false on the code. -/
theorem claim_C1_counterexample :
    (ewm (1 / (1 + ((14 : ℚ) - 1))) ((diff [1, 1]).map lossOf))[1]? = some (0 : ℚ) ∧
    (calculate_rsi [1, 1] 14)[1]? = some EF.nan ∧
    EF.nan ≠ EF.fin 100 := by
  refine ⟨?_, ?_, by simp⟩
  · norm_num [diff, diffAux, lossOf, ewm, ewmAux]
  · have hm := calculate_rsi_get [1, 1] 14 1 (by norm_num)
    have hg : refAvgGain [1, 1] 14 1 = 0 := by
      show (1 : ℚ) / 14 * refGain [1, 1] 1 + (1 - 1 / 14) * specAvg (1 / 14) (refGain [1, 1]) 0 = 0
      have h1 : refGain [1, 1] 1 = 0 := by
        rw [refGain]
        norm_num [List.getD_cons_succ, List.getD_cons_zero]
      have h0 : specAvg ((1 : ℚ) / 14) (refGain [1, 1]) 0 = 0 := by
        show refGain [1, 1] 0 = 0
        rw [refGain]; simp
      rw [h1, h0]; ring
    have hl : refAvgLoss [1, 1] 14 1 = 0 := by
      show (1 : ℚ) / 14 * refLoss [1, 1] 1 + (1 - 1 / 14) * specAvg (1 / 14) (refLoss [1, 1]) 0 = 0
      have h1 : refLoss [1, 1] 1 = 0 := by
        rw [refLoss]
        norm_num [List.getD_cons_succ, List.getD_cons_zero]
      have h0 : specAvg ((1 : ℚ) / 14) (refLoss [1, 1]) 0 = 0 := by
        show refLoss [1, 1] 0 = 0
        rw [refLoss]; simp
      rw [h1, h0]; ring
    rw [hg, hl, rsiFrom_zero_zero] at hm
    exact hm

/-- C1 amended: whenever the smoothed average loss at index `i` is zero
and the smoothed average gain there is nonzero, the RSI value at `i` is
the finite value 100; but when both smoothed averages are zero — as at
every index of a constant closing-price series — the unguarded `0 / 0`
makes the RSI value NaN, not 100. -/
theorem claim_C1_amended_zero_loss (s : List ℚ) (p : ℕ) (i : ℕ) (hp : 1 ≤ p)
    (hi : i < s.length) (hl : refAvgLoss s p i = 0) :
    (refAvgGain s p i ≠ 0 → (calculate_rsi s p)[i]? = some (EF.fin 100)) ∧
    (refAvgGain s p i = 0 → (calculate_rsi s p)[i]? = some EF.nan) := by
  have hm := calculate_rsi_get s p i hi
  constructor
  · intro hg
    have hpos : 0 < refAvgGain s p i :=
      lt_of_le_of_ne (refAvgGain_nonneg s p hp i) (Ne.symm hg)
    rw [hl, rsiFrom_pos_zero _ hpos] at hm
    exact hm
  · intro hg
    rw [hg, hl, rsiFrom_zero_zero] at hm
    exact hm

theorem claim_C1_amended_witness :
    refAvgLoss [1, 2] 14 1 = 0 ∧ refAvgGain [1, 2] 14 1 ≠ 0 ∧
      (calculate_rsi [1, 2] 14)[1]? = some (EF.fin 100) := by
  have hl : refAvgLoss [1, 2] 14 1 = 0 := by
    show (1 : ℚ) / 14 * refLoss [1, 2] 1 + (1 - 1 / 14) * specAvg (1 / 14) (refLoss [1, 2]) 0 = 0
    have h1 : refLoss [1, 2] 1 = 0 := by
      rw [refLoss]
      norm_num [List.getD_cons_succ, List.getD_cons_zero, max_def]
    have h0 : specAvg ((1 : ℚ) / 14) (refLoss [1, 2]) 0 = 0 := by
      show refLoss [1, 2] 0 = 0
      rw [refLoss]; simp
    rw [h1, h0]; ring
  have hg : refAvgGain [1, 2] 14 1 ≠ 0 := by
    have h1 : refGain [1, 2] 1 = 1 := by
      rw [refGain]
      norm_num [List.getD_cons_succ, List.getD_cons_zero, max_def]
    have h0 : specAvg ((1 : ℚ) / 14) (refGain [1, 2]) 0 = 0 := by
      show refGain [1, 2] 0 = 0
      rw [refGain]; simp
    show (1 : ℚ) / 14 * refGain [1, 2] 1 + (1 - 1 / 14) * specAvg (1 / 14) (refGain [1, 2]) 0 ≠ 0
    rw [h1, h0]
    norm_num
  exact ⟨hl, hg,
    (claim_C1_amended_zero_loss [1, 2] 14 1 (by decide) (by decide) hl).1 hg⟩

/-- C5: on a monotonically increasing series of length ≥ P+2 the last two
RSI values never satisfy the SELL rule, and on a monotonically decreasing
series of that length they never satisfy the BUY rule (with NaN warm-up
values deciding no comparison, as in IEEE arithmetic). -/
theorem claim_C5_monotone_no_false_signal :
    (∀ (s : List ℚ) (p : ℕ), 1 ≤ p → p + 2 ≤ s.length →
        (∀ i, i < s.length - 1 → s.getD i 0 ≤ s.getD (i + 1) 0) →
        signal ((calculate_rsi s p).getD (s.length - 2) .nan)
          ((calculate_rsi s p).getD (s.length - 1) .nan) ≠ .sell) ∧
    (∀ (s : List ℚ) (p : ℕ), 1 ≤ p → p + 2 ≤ s.length →
        (∀ i, i < s.length - 1 → s.getD (i + 1) 0 ≤ s.getD i 0) →
        signal ((calculate_rsi s p).getD (s.length - 2) .nan)
          ((calculate_rsi s p).getD (s.length - 1) .nan) ≠ .buy) := by
  constructor
  · intro s p hp hlen hmono
    have hloss : ∀ j, j ≤ s.length - 1 → refLoss s j = 0 := by
      intro j hj
      match j with
      | 0 => rw [refLoss]; simp
      | k + 1 =>
        rw [refLoss, if_neg (by omega : ¬(k + 1 = 0))]
        simp only [Nat.add_sub_cancel]
        have hm := hmono k (by omega)
        exact max_eq_right (by linarith)
    have hl : refAvgLoss s p (s.length - 1) = 0 :=
      specAvg_eq_zero _ _ _ hloss
    have hcurr := calculate_rsi_get s p (s.length - 1) (by omega)
    rw [hl] at hcurr
    have hcD := getD_of_getElem? EF.nan hcurr
    intro hsig
    have hlt := signal_eq_sell_then _ _ hsig
    rw [hcD] at hlt
    rcases eq_or_lt_of_le (refAvgGain_nonneg s p hp (s.length - 1)) with hg | hg
    · rw [← hg, rsiFrom_zero_zero] at hlt
      exact absurd hlt (by simp [efLt])
    · rw [rsiFrom_pos_zero _ hg, efLt_fin_fin, decide_eq_true_eq] at hlt
      norm_num at hlt
  · intro s p hp hlen hmono
    have hgain : ∀ j, j ≤ s.length - 1 → refGain s j = 0 := by
      intro j hj
      match j with
      | 0 => rw [refGain]; simp
      | k + 1 =>
        rw [refGain, if_neg (by omega : ¬(k + 1 = 0))]
        simp only [Nat.add_sub_cancel]
        have hm := hmono k (by omega)
        exact max_eq_right (by linarith)
    have hg : refAvgGain s p (s.length - 1) = 0 :=
      specAvg_eq_zero _ _ _ hgain
    have hcurr := calculate_rsi_get s p (s.length - 1) (by omega)
    rw [hg] at hcurr
    have hcD := getD_of_getElem? EF.nan hcurr
    intro hsig
    have hlt := signal_eq_buy_then _ _ hsig
    rw [hcD] at hlt
    rcases eq_or_lt_of_le (refAvgLoss_nonneg s p hp (s.length - 1)) with hlz | hlz
    · rw [← hlz, rsiFrom_zero_zero, efLt_nan_right] at hlt
      exact absurd hlt (by simp)
    · rw [rsiFrom_zero_pos _ hlz, efLt_fin_fin, decide_eq_true_eq] at hlt
      norm_num at hlt

theorem claim_C5_witness :
    ((1 ≤ 14 ∧ 14 + 2 ≤ ([1, 2, 3, 4, 5, 6, 7, 8, 9, 10, 11, 12, 13, 14, 15, 16] : List ℚ).length ∧
        (∀ i, i < ([1, 2, 3, 4, 5, 6, 7, 8, 9, 10, 11, 12, 13, 14, 15, 16] : List ℚ).length - 1 →
          ([1, 2, 3, 4, 5, 6, 7, 8, 9, 10, 11, 12, 13, 14, 15, 16] : List ℚ).getD i 0 ≤
            ([1, 2, 3, 4, 5, 6, 7, 8, 9, 10, 11, 12, 13, 14, 15, 16] : List ℚ).getD (i + 1) 0)) ∧
      signal ((calculate_rsi [1, 2, 3, 4, 5, 6, 7, 8, 9, 10, 11, 12, 13, 14, 15, 16] 14).getD 14 .nan)
        ((calculate_rsi [1, 2, 3, 4, 5, 6, 7, 8, 9, 10, 11, 12, 13, 14, 15, 16] 14).getD 15 .nan) ≠ .sell) ∧
    ((1 ≤ 14 ∧ 14 + 2 ≤ ([16, 15, 14, 13, 12, 11, 10, 9, 8, 7, 6, 5, 4, 3, 2, 1] : List ℚ).length ∧
        (∀ i, i < ([16, 15, 14, 13, 12, 11, 10, 9, 8, 7, 6, 5, 4, 3, 2, 1] : List ℚ).length - 1 →
          ([16, 15, 14, 13, 12, 11, 10, 9, 8, 7, 6, 5, 4, 3, 2, 1] : List ℚ).getD (i + 1) 0 ≤
            ([16, 15, 14, 13, 12, 11, 10, 9, 8, 7, 6, 5, 4, 3, 2, 1] : List ℚ).getD i 0)) ∧
      signal ((calculate_rsi [16, 15, 14, 13, 12, 11, 10, 9, 8, 7, 6, 5, 4, 3, 2, 1] 14).getD 14 .nan)
        ((calculate_rsi [16, 15, 14, 13, 12, 11, 10, 9, 8, 7, 6, 5, 4, 3, 2, 1] 14).getD 15 .nan) ≠ .buy) := by
  have hup : ∀ i, i < ([1, 2, 3, 4, 5, 6, 7, 8, 9, 10, 11, 12, 13, 14, 15, 16] : List ℚ).length - 1 →
      ([1, 2, 3, 4, 5, 6, 7, 8, 9, 10, 11, 12, 13, 14, 15, 16] : List ℚ).getD i 0 ≤
        ([1, 2, 3, 4, 5, 6, 7, 8, 9, 10, 11, 12, 13, 14, 15, 16] : List ℚ).getD (i + 1) 0 := by
    intro i hi
    simp only [List.length_cons, List.length_nil] at hi
    interval_cases i <;>
      simp only [List.getD_cons_succ, List.getD_cons_zero] <;> norm_num
  have hdown : ∀ i, i < ([16, 15, 14, 13, 12, 11, 10, 9, 8, 7, 6, 5, 4, 3, 2, 1] : List ℚ).length - 1 →
      ([16, 15, 14, 13, 12, 11, 10, 9, 8, 7, 6, 5, 4, 3, 2, 1] : List ℚ).getD (i + 1) 0 ≤
        ([16, 15, 14, 13, 12, 11, 10, 9, 8, 7, 6, 5, 4, 3, 2, 1] : List ℚ).getD i 0 := by
    intro i hi
    simp only [List.length_cons, List.length_nil] at hi
    interval_cases i <;>
      simp only [List.getD_cons_succ, List.getD_cons_zero] <;> norm_num
  exact ⟨⟨⟨by decide, by decide, hup⟩,
      claim_C5_monotone_no_false_signal.1 _ 14 (by decide) (by decide) hup⟩,
    ⟨⟨by decide, by decide, hdown⟩,
      claim_C5_monotone_no_false_signal.2 _ 14 (by decide) (by decide) hdown⟩⟩

theorem iloc_neg_one_isSome (l : List EF) :
    (iloc l (-1)).isSome = true ↔ 1 ≤ l.length := by
  rw [iloc, if_pos (by norm_num : (-1 : ℤ) < 0)]
  have h1 : (-(-1 : ℤ)).toNat = 1 := by decide
  rw [h1]
  by_cases h : 1 ≤ l.length
  · rw [if_pos h, List.get?_eq_getElem?, isSome_getElem?_iff]
    omega
  · rw [if_neg h]
    simp [h]

theorem iloc_neg_two_isSome (l : List EF) :
    (iloc l (-2)).isSome = true ↔ 2 ≤ l.length := by
  rw [iloc, if_pos (by norm_num : (-2 : ℤ) < 0)]
  have h1 : (-(-2 : ℤ)).toNat = 2 := by decide
  rw [h1]
  by_cases h : 2 ≤ l.length
  · rw [if_pos h, List.get?_eq_getElem?, isSome_getElem?_iff]
    omega
  · rw [if_neg h]
    simp [h]

/-- C4: the two tail accesses of `check_market` are in-bounds exactly when
the fetched frame has at least 2 rows, and on a 1-row non-empty frame the
run ends in an uncaught `IndexError` rather than a silent no-crossover
outcome. -/
theorem claim_C4_two_row_precondition (df : List Candle) :
    (((iloc (calculate_rsi (df.map Candle.close) 14) (-1)).isSome = true ∧
        (iloc (calculate_rsi (df.map Candle.close) 14) (-2)).isSome = true) ↔
      2 ≤ df.length) ∧
    (df.length = 1 → check_market (Option.some df) = ⟨.indexError, 0⟩) := by
  have hlen : (calculate_rsi (df.map Candle.close) 14).length = df.length := by
    rw [length_calculate_rsi, List.length_map]
  constructor
  · constructor
    · rintro ⟨-, h2⟩
      have := (iloc_neg_two_isSome _).1 h2
      omega
    · intro h
      exact ⟨(iloc_neg_one_isSome _).2 (by omega), (iloc_neg_two_isSome _).2 (by omega)⟩
  · intro h
    rcases List.length_eq_one.1 h with ⟨c, rfl⟩
    have h2 : iloc (calculate_rsi ([c].map Candle.close) 14) (-2) = Option.none := by
      have hn : ¬ ((iloc (calculate_rsi ([c].map Candle.close) 14) (-2)).isSome = true) := by
        rw [iloc_neg_two_isSome, hlen]
        norm_num
      exact Option.not_isSome_iff_eq_none.1 hn
    have h1 : (iloc (calculate_rsi ([c].map Candle.close) 14) (-1)).isSome = true :=
      (iloc_neg_one_isSome _).2 (by rw [hlen]; norm_num)
    rcases Option.isSome_iff_exists.1 h1 with ⟨x, hx⟩
    show check_market (Option.some [c]) = ⟨.indexError, 0⟩
    rw [check_market]
    simp only [List.isEmpty_cons, Bool.false_eq_true, if_false]
    rw [hx, h2]

theorem claim_C4_witness :
    (⟨1, 1, 1, 1⟩ :: ([] : List Candle)).length = 1 ∧
      check_market (Option.some [⟨1, 1, 1, 1⟩]) = ⟨.indexError, 0⟩ :=
  ⟨rfl, (claim_C4_two_row_precondition [⟨1, 1, 1, 1⟩]).2 rfl⟩

/-- C6 counterexample: with all three environment variables present but
the bot token set to the empty string, the startup check still aborts
with exit code 1 and no network activity — the claim that presence of all
three prevents the abort is false on the code, whose `not X` test also
treats a present-but-empty value as missing. -/
theorem claim_C6_counterexample :
    (Option.some "").isSome = true ∧ (Option.some "c").isSome = true ∧
      (Option.some "k").isSome = true ∧
      runMain (Option.some "") (Option.some "c") (Option.some "k") (.exn "down") =
        ⟨1, []⟩ := by
  refine ⟨rfl, rfl, rfl, ?_⟩
  rw [runMain]
  simp [truthy, show ("".isEmpty) = true from rfl]

/-- C6 amended: if any of the three required environment variables is
unset at startup, the process exits with code 1 having performed no
network activity; if all three are present with non-empty values, the
startup abort does not occur and the data request is reached (a
present-but-empty value aborts like a missing one). -/
theorem claim_C6_amended_startup_check :
    (∀ (bot chat key : Option String) (resp : ApiResponse),
        (bot = Option.none ∨ chat = Option.none ∨ key = Option.none) →
        runMain bot chat key resp = ⟨1, []⟩) ∧
    (∀ (bot chat key : Option String) (resp : ApiResponse),
        truthy bot = true → truthy chat = true → truthy key = true →
        ∃ rest, (runMain bot chat key resp).net = NetEvent.fetchRequest :: rest) := by
  constructor
  · intro bot chat key resp h
    rcases h with h | h | h <;> subst h <;> rw [runMain] <;> simp [truthy]
  · intro bot chat key resp h1 h2 h3
    rw [runMain, h1, h2, h3]
    simp only [Bool.not_true, Bool.or_self, Bool.or_false, Bool.false_eq_true, if_false]
    exact ⟨_, rfl⟩

theorem claim_C6_amended_witness :
    (Option.none = (Option.none : Option String) ∨ Option.some "c" = Option.none ∨
        Option.some "k" = Option.none) ∧
      runMain Option.none (Option.some "c") (Option.some "k") (.exn "down") = ⟨1, []⟩ ∧
      truthy (Option.some "b") = true ∧ truthy (Option.some "c") = true ∧
      truthy (Option.some "k") = true ∧
      (∃ rest, (runMain (Option.some "b") (Option.some "c") (Option.some "k")
          (.exn "down")).net = NetEvent.fetchRequest :: rest) :=
  ⟨Or.inl rfl,
    claim_C6_amended_startup_check.1 Option.none (Option.some "c") (Option.some "k")
      (.exn "down") (Or.inl rfl),
    rfl, rfl, rfl,
    claim_C6_amended_startup_check.2 (Option.some "b") (Option.some "c")
      (Option.some "k") (.exn "down") rfl rfl rfl⟩

/-- A fetch failure: a raised exception, a response without the `values`
key, or an empty `values` list. -/
def isFetchFailure : ApiResponse → Prop
  | .exn _ => True
  | .json Option.none _ => True
  | .json (Option.some vs) _ => vs = []

/-- C7: every fetch failure yields no data frame after a printed
diagnostic, `check_market` then ends as a no-data soft no-op with no alert
sent, the process (when startup passed) exits 0 having performed only the
fetch request, and the missing-`values` diagnostic carries the response
`message` when present and a generic text otherwise. -/
theorem claim_C7_fetch_failure_is_soft :
    (∀ r : ApiResponse, isFetchFailure r →
        (get_twelvedata_price r).1 = Option.none ∧
        (get_twelvedata_price r).2 ≠ [] ∧
        check_market (get_twelvedata_price r).1 = ⟨.noData, 0⟩ ∧
        ∀ bot chat key : Option String,
          truthy bot = true → truthy chat = true → truthy key = true →
          runMain bot chat key r = ⟨0, [NetEvent.fetchRequest]⟩) ∧
    (∀ m, (get_twelvedata_price (.json Option.none (Option.some m))).2 =
        ["Error fetching data: " ++ m]) ∧
    (get_twelvedata_price (.json Option.none Option.none)).2 =
      ["Error fetching data: Unknown error"] := by
  refine ⟨?_, fun m => rfl, rfl⟩
  intro r hr
  have hkey : (get_twelvedata_price r).1 = Option.none ∧ (get_twelvedata_price r).2 ≠ [] := by
    match r, hr with
    | .exn e, _ => exact ⟨rfl, by simp [get_twelvedata_price]⟩
    | .json Option.none m, _ => exact ⟨rfl, by simp [get_twelvedata_price]⟩
    | .json (Option.some vs) m, hr =>
      have : vs = [] := hr
      subst this
      exact ⟨rfl, by simp [get_twelvedata_price]⟩
  refine ⟨hkey.1, hkey.2, ?_, ?_⟩
  · rw [hkey.1]
    rfl
  · intro bot chat key h1 h2 h3
    rw [runMain, h1, h2, h3]
    simp only [Bool.not_true, Bool.or_self, Bool.or_false, Bool.false_eq_true, if_false]
    rw [hkey.1]
    rfl

theorem claim_C7_witness :
    isFetchFailure (.exn "timeout") ∧
      (get_twelvedata_price (.exn "timeout")).1 = Option.none ∧
      check_market (get_twelvedata_price (.exn "timeout")).1 = ⟨.noData, 0⟩ ∧
      truthy (Option.some "b") = true ∧
      runMain (Option.some "b") (Option.some "c") (Option.some "k") (.exn "timeout") =
        ⟨0, [NetEvent.fetchRequest]⟩ :=
  ⟨trivial,
    (claim_C7_fetch_failure_is_soft.1 (.exn "timeout") trivial).1,
    (claim_C7_fetch_failure_is_soft.1 (.exn "timeout") trivial).2.2.1,
    rfl,
    (claim_C7_fetch_failure_is_soft.1 (.exn "timeout") trivial).2.2.2
      (Option.some "b") (Option.some "c") (Option.some "k") rfl rfl rfl⟩

end Bot
